import Mathlib

/-!
Shallow embedding of the `gossip_glomers` maelstrom node runtime and the
protocol handlers built on it (broadcast v1, grow-only counter v1, the
Kafka-style replicated log, and the whole-root transactional key-value
store), together with theorems settling the specification claims about
them.

Machine integers `i64`/`u64` from the Rust source are modelled as `Int`
and `Nat` (no arithmetic in the verified fragments can overflow in a way
the claims depend on), Rust `HashMap`s keyed by strings as association
lists with key-based lookup, `HashSet<i64>` as `Finset Int`, and fallible
or panicking code as `Option`/`Except` values (a `.unwrap()` panic is
`none`).
-/

namespace GossipGlomers

/-! ## Wire data model (src/src/message.rs) -/

/-- Type `Value` from `message.rs`: the untagged JSON value carried by the
external key-value store protocol.  `Map` is `HashMap<String, Vec<i64>>`,
modelled as an association list. -/
inductive Value where
  | none : Value
  | int : Int → Value
  | vec : List Int → Value
  | map : List (String × List Int) → Value
  | string : String → Value
deriving DecidableEq, Repr

/-- Method `Value::as_int` from `message.rs`. -/
def Value.as_int : Value → Option Int
  | .int v => some v
  | _ => Option.none

/-- Method `Value::as_vec` from `message.rs`. -/
def Value.as_vec : Value → Option (List Int)
  | .vec v => some v
  | _ => Option.none

/-- Type `Transaction` from `message.rs` (`u64` keys, `i64` values). -/
inductive Transaction where
  | read (key : Nat) (val : Value)
  | write (key : Nat) (value : Int)
  | append (key : Nat) (value : Int)
deriving DecidableEq, Repr

/-- Type `MessageType` from `message.rs`: the tagged payload union.  `HashSet`
and `HashMap` payload fields are modelled as lists. -/
inductive MessageType where
  | init (node_id : String) (node_ids : List String)
  | initOk
  | error (code : Nat) (text : String)
  | echo (echo : String)
  | echoOk (echo : String)
  | generate
  | generateOk (id : String)
  | broadcast (message : Int)
  | broadcastOk
  | broadcastMany (messages : List Int)
  | broadcastManyOk
  | read (key : Option String)
  | readOk (messages : Option (List Int)) (value : Option Value)
  | topology (topology : List (String × List String))
  | topologyOk
  | add (delta : Int)
  | addOk
  | send (key : String) (msg : Int)
  | sendOk (offset : Int)
  | poll (offsets : List (String × Int))
  | pollOk (msgs : List (String × List (Int × Int)))
  | commitOffsets (offsets : List (String × Int))
  | commitOffsetsOk
  | listCommittedOffsets (keys : List String)
  | listCommittedOffsetsOk (offsets : List (String × Int))
  | txn (txn : List Transaction)
  | txnOk (txn : List Transaction)
  | cas (key : String) (fromValue : Value) (toValue : Value)
      (create_if_not_exists : Option Bool)
  | casOk
  | write (key : String) (value : Value)
  | writeOk
deriving DecidableEq, Repr

/-- Type `MessageBody` from `message.rs`. -/
structure MessageBody where
  msg_id : Option Nat
  in_reply_to : Option Nat
  msg_type : MessageType
deriving DecidableEq, Repr

/-- Constructor `MessageBody::with_type` from `message.rs`. -/
def MessageBody.with_type (msg_type : MessageType) : MessageBody :=
  ⟨Option.none, Option.none, msg_type⟩

/-- Type `Message` from `message.rs`. -/
structure Message where
  src : String
  dest : String
  body : MessageBody
deriving DecidableEq, Repr

/-! ## Kafka-style replicated log (src/bin/kafka_log.rs)

Each handler branch performs its external-store round trips through
`KafkaLogApp::read`/`write`; we embed the per-key state transformation the
branch applies to the value stored at that key.  `read` yields
`Value::None` when the store does not reply `ReadOk` (absent key). -/

/-- The `Send { key, msg }` branch of `KafkaLogApp::handler`: read the
key's current sequence (`as_vec().unwrap_or_default()`), reply with
`offset = data.len()` and write back the sequence with `msg` pushed. -/
def sendStep (stored : Value) (msg : Int) : Int × Value :=
  let data := (stored.as_vec).getD []
  let offset : Int := data.length
  (offset, Value.vec (data ++ [msg]))

/-- Iterate `sendStep` over successive `Send` requests for one key,
collecting the offsets replied. -/
def runSends (stored : Value) : List Int → List Int × Value
  | [] => ([], stored)
  | msg :: rest =>
    let step := sendStep stored msg
    let tail := runSends step.2 rest
    (step.1 :: tail.1, tail.2)

/-- One key's update in the `CommitOffsets` branch of
`KafkaLogApp::handler`: read the stored committed offset
(`as_int().unwrap_or(-1)`) and write the requested offset only when it is
strictly greater.  Returns the key's new stored value and whether a write
was issued. -/
def commitStep (stored : Value) (offset : Int) : Value × Bool :=
  let last_comitted_offset := (stored.as_int).getD (-1)
  if last_comitted_offset < offset then (Value.int offset, true)
  else (stored, false)

/-- Iterate `commitStep` over successive `CommitOffsets` requests for one
key. -/
def runCommits (stored : Value) : List Int → Value
  | [] => stored
  | offset :: rest => runCommits (commitStep stored offset).1 rest

/-- The committed offset encoded by a stored value, with absence (or a
non-integer value) read as `-1`, as `as_int().unwrap_or(-1)` does. -/
def committedOf (stored : Value) : Int :=
  (stored.as_int).getD (-1)

/-- The derived storage key `format!("{key}-commited")` used by the
commit-offset branches of `KafkaLogApp::handler`. -/
def derivedKey (key : String) : String := key ++ "-commited"

/-- The `ListCommittedOffsets { keys }` branch of `KafkaLogApp::handler`:
for each requested key, read the derived key's stored value; when it is an
integer, insert it into the reply map.  NOTE: the Rust code shadows `key`
with the derived name before `offsets.insert(key.to_owned(), offset)`, so
the reply map is keyed by the derived storage key.  `store` maps each key
to the value `KafkaLogApp::read` yields for it (`Value::None` if absent). -/
def listCommittedHandler (store : String → Value) (keys : List String) :
    List (String × Int) :=
  keys.foldl
    (fun offsets key =>
      let key2 := derivedKey key
      match (store key2).as_int with
      | some offset => offsets ++ [(key2, offset)]
      | Option.none => offsets)
    []

/-! ## RPC engine (src/src/maelstrom.rs, `Maelstrom::rpc`)

`rpc` allocates a fresh `msg_id`, sets it on the body, registers a
oneshot sender under `msg_id` in the pending-request table, sends once,
consumes the interval's immediately-completing first tick, and then loops
selecting between the next 500 ms tick and the reply channel.  We embed
the loop as a function of the sequence of events it observes: each
`RpcEvent.tick` is one 500 ms interval tick, `RpcEvent.reply m` is the
oneshot channel completing with `m`.  The pending-request table is
modelled as the `Finset Nat` of registered request ids; the loop performs
no table operation, matching the source.  An empty/exhausted event list
means the call is still waiting (outcome `none`). -/

/-- An event observed by the `tokio::select!` loop inside
`Maelstrom::rpc`: an interval tick, or the reply channel completing. -/
inductive RpcEvent where
  | tick
  | reply (m : Message)
deriving DecidableEq, Repr

/-- The one error `Maelstrom::rpc` can return from its loop:
`io::ErrorKind::TimedOut` ("rpc timed out"). -/
inductive RpcError where
  | timedOut
deriving DecidableEq, Repr

/-- The select loop of `Maelstrom::rpc`: on a tick, resend the identical
body when `retry` is set, otherwise return the timeout error; on the
reply channel completing, return the reply.  Yields the outcome (if the
loop returned within the observed events) and the resends issued. -/
def rpcLoop (retry : Bool) (dest : String) (body : MessageBody) :
    List RpcEvent → Option (Except RpcError Message) × List (String × MessageBody)
  | [] => (Option.none, [])
  | RpcEvent.tick :: rest =>
    if retry then
      let tail := rpcLoop retry dest body rest
      (tail.1, (dest, body) :: tail.2)
    else (some (Except.error RpcError.timedOut), [])
  | RpcEvent.reply m :: _ => (some (Except.ok m), [])

/-- Function `Maelstrom::rpc` for one call with fresh id `msgId`: sets
`body.msg_id`, inserts `msgId` into the pending-request table, sends the
body once and runs the select loop.  Returns the outcome, every send
issued (the initial send followed by the loop's resends) and the
pending-request table as left behind by the call — no path of `rpc`
removes the entry. -/
def rpcRun (table : Finset Nat) (msgId : Nat) (retry : Bool) (dest : String)
    (body0 : MessageBody) (events : List RpcEvent) :
    Option (Except RpcError Message) × List (String × MessageBody) × Finset Nat :=
  let body : MessageBody := { body0 with msg_id := some msgId }
  let table2 : Finset Nat := insert msgId table
  let res := rpcLoop retry dest body events
  (res.1, (dest, body) :: res.2, table2)

/-- Function `Maelstrom::process_response`: remove the oneshot sender registered
under `in_reply_to` from the pending-request table and fulfil it when it
was present.  Returns the table after removal and whether a sender was
found. -/
def processResponseTable (table : Finset Nat) (in_reply_to : Nat) :
    Finset Nat × Bool :=
  (table.erase in_reply_to, decide (in_reply_to ∈ table))

/-! ## Dispatch loop (src/src/maelstrom.rs, `Maelstrom::run_with_app`)

`run_with_app` reads messages in order.  A message with `in_reply_to` is
routed to response resolution; an `Init` message calls `set_node_meta`
(a `OnceCell::set`, which fails when the cell is already set) and the `?`
operator propagates that failure out of the loop; every other message is
dispatched to the app handler.  We model the node cell, the list of
messages dispatched to the handler and the list of routed responses, and
return `Except` with the error carrying the state at the point the loop
aborted. -/

/-- Type `NodeMeta` from `maelstrom.rs`. -/
structure NodeMeta where
  node_id : String
  node_ids : List String
deriving DecidableEq, Repr

/-- The observable state of the dispatch loop: the write-once node cell,
the requests dispatched to the app handler, and the replies routed to
response resolution. -/
structure RunState where
  node : Option NodeMeta
  handled : List Message
  responses : List Message
deriving DecidableEq, Repr

/-- Function `Maelstrom::set_node_meta`: `OnceCell::set` succeeds only when the
cell is empty; a second set returns an error and leaves the stored value
untouched. -/
def setNodeMeta (node : Option NodeMeta) (meta : NodeMeta) :
    Except String (Option NodeMeta) :=
  match node with
  | Option.none => Except.ok (some meta)
  | some _ => Except.error "node meta already set"

/-- The read/dispatch loop of `Maelstrom::run_with_app` over a list of
parsed input messages.  On a failing `set_node_meta` the `?` operator
aborts the loop, returning the error together with the state at that
point (the remaining input is never dispatched). -/
def runWithApp (st : RunState) : List Message → Except (String × RunState) RunState
  | [] => Except.ok st
  | msg :: rest =>
    match msg.body.in_reply_to with
    | some _ => runWithApp { st with responses := st.responses ++ [msg] } rest
    | Option.none =>
      match msg.body.msg_type with
      | MessageType.init node_id node_ids =>
        match setNodeMeta st.node ⟨node_id, node_ids⟩ with
        | Except.error e => Except.error (e, st)
        | Except.ok node2 => runWithApp { st with node := node2 } rest
      | _ => runWithApp { st with handled := st.handled ++ [msg] } rest

/-- A concrete `init` request message (no `in_reply_to`). -/
def mkInitMsg (src dest : String) (mid : Option Nat) (node_id : String)
    (node_ids : List String) : Message :=
  ⟨src, dest, ⟨mid, Option.none, MessageType.init node_id node_ids⟩⟩

/-! ## Broadcast v1 (src/bin/broadcast_v1.rs)

The `Broadcast { message }` branch of `BroadcastApp::handler`: with the
seen-set locked, a value already present is merely acknowledged; a new
value is inserted and then forwarded via `spawn_rpc(neighbour, body,
true)` (retry until acknowledged) to every neighbour except the request's
source, and acknowledged. -/

/-- The `Broadcast` branch of `BroadcastApp::handler`.  Returns the new
seen-set, the forwards spawned (destination, body, retry flag) and the
reply body. -/
def broadcastStep (seen : Finset Int) (src : String) (neighbours : List String)
    (message : Int) : Finset Int × List (String × MessageBody × Bool) × MessageBody :=
  if message ∈ seen then (seen, [], MessageBody.with_type MessageType.broadcastOk)
  else
    (insert message seen,
     (neighbours.filter (fun n => n ≠ src)).map
       (fun n => (n, MessageBody.with_type (MessageType.broadcast message), true)),
     MessageBody.with_type MessageType.broadcastOk)

/-! ## Grow-only counter v1 (src/bin/grow_counter_v1.rs)

The per-node counter table `HashMap<String, AtomicI64>` is modelled as an
association list `List (String × Int)`; `fetch_max` on the slot of the
broadcast's source is an atomic read-combine-write of that entry. -/

/-- First-match lookup in an association list (a `HashMap` get). -/
def alLookup : List (String × Int) → String → Option Int
  | [], _ => Option.none
  | (k, v) :: rest, key => if k = key then some v else alLookup rest key

/-- Replace the value of the first entry with the given key, leaving the
list unchanged when the key is absent (a `HashMap` in-place update). -/
def alSet : List (String × Int) → String → Int → List (String × Int)
  | [], _, _ => []
  | (k, v) :: rest, key, nv =>
    if k = key then (k, nv) :: rest else (k, v) :: alSet rest key nv

/-- The `Broadcast { message }` branch of `GrowOnlyCounterApp::handler`:
`counters.get(&request.src).unwrap().fetch_max(*message)` — panics
(`none`) when the source has no slot, otherwise sets the source's slot to
the maximum of its current and received value. -/
def growStep (counters : List (String × Int)) (src : String) (message : Int) :
    Option (List (String × Int)) :=
  match alLookup counters src with
  | Option.none => Option.none
  | some old => some (alSet counters src (max old message))

/-- Deliver a list of broadcast state values from one peer in order. -/
def runBroadcasts (counters : List (String × Int)) (src : String) :
    List Int → Option (List (String × Int))
  | [] => some counters
  | v :: rest =>
    match growStep counters src v with
    | Option.none => Option.none
    | some counters2 => runBroadcasts counters2 src rest

/-- The `Read` branch of `GrowOnlyCounterApp::handler`: the sum of all
per-node slots. -/
def readSum (counters : List (String × Int)) : Int :=
  (counters.map Prod.snd).sum

/-! ## Whole-root transactional store (src/bin/txn_list_append.rs)

`TxnKVStoreApp::transaction_handler` reads the whole database from the
`root` key of `lin-kv`, applies the transaction's operations to the
in-memory map, and issues a single compare-and-swap of `root` from the
value read to the updated map.  We parametrise the embedding by the two
store responses and record every key-value operation the handler issues. -/

/-- An operation issued against the external key-value store. -/
inductive KVOp where
  | read (key : String)
  | write (key : String) (value : Value)
  | cas (key : String) (fromValue : Value) (toValue : Value)
      (create_if_not_exists : Option Bool)
deriving DecidableEq, Repr

/-- Whether a `KVOp` can modify the store (anything but a pure read). -/
def KVOp.isMutation : KVOp → Bool
  | .read _ => false
  | .write _ _ => true
  | .cas _ _ _ _ => true

/-- First-match lookup in the root map (`data.get(&key.to_string())`). -/
def mapGet : List (String × List Int) → String → Option (List Int)
  | [], _ => Option.none
  | (k, v) :: rest, key => if k = key then some v else mapGet rest key

/-- The statement `data.entry(key.to_string()).or_insert(vec![]).push(value)`: append
`value` to the key's list, creating the entry when absent. -/
def mapAppendEntry : List (String × List Int) → String → Int →
    List (String × List Int)
  | [], key, value => [(key, [value])]
  | (k, v) :: rest, key, value =>
    if k = key then (k, v ++ [value]) :: rest
    else (k, v) :: mapAppendEntry rest key value

/-- The `for t in txn.iter_mut()` loop of
`TxnKVStoreApp::transaction_handler`: a `Read` overwrites its value slot
with the key's current list — panicking (`none`) when the key is absent,
because of `data.get(..).map(..).unwrap()`; an `Append` pushes its value
onto the key's list; a `Write` falls into the `_ => {}` arm.  Returns the
filled-in transaction and the updated map. -/
def processTxn (data : List (String × List Int)) :
    List Transaction → Option (List Transaction × List (String × List Int))
  | [] => some ([], data)
  | Transaction.read key _ :: rest =>
    match mapGet data (toString key) with
    | Option.none => Option.none
    | some l =>
      match processTxn data rest with
      | Option.none => Option.none
      | some (ts, d) => some (Transaction.read key (Value.vec l) :: ts, d)
  | Transaction.append key value :: rest =>
    match processTxn (mapAppendEntry data (toString key) value) rest with
    | Option.none => Option.none
    | some (ts, d) => some (Transaction.append key value :: ts, d)
  | t :: rest =>
    match processTxn data rest with
    | Option.none => Option.none
    | some (ts, d) => some (t :: ts, d)

/-- The `value.unwrap()` applied to a `ReadOk` response of the initial
`root` read (`none` is the panic on a `ReadOk` without a value); any
other response is treated as `Value::None`. -/
def valueOfReadResp : MessageType → Option Value
  | MessageType.readOk _ value => value
  | _ => some Value.none

/-- The binding `let mut data = match old_data { Value::Map(v) => v, _ => HashMap::new() }`:
decode the whole-database map out of the `root` value. -/
def rootData : Value → List (String × List Int)
  | Value.map v => v
  | _ => []

/-- Function `TxnKVStoreApp::transaction_handler`, parametrised by the store's
responses to its `root` read and to its compare-and-swap.  Returns
`none` on a panic, otherwise the `io::Result` outcome together with the
list of key-value operations the handler issued, in order. -/
def transaction_handler (readResp casResp : MessageType)
    (txn : List Transaction) :
    Option (Except String (List Transaction) × List KVOp) :=
  match valueOfReadResp readResp with
  | Option.none => Option.none
  | some old_data =>
    match processTxn (rootData old_data) txn with
    | Option.none => Option.none
    | some (txn2, data2) =>
      let ops := [KVOp.read "root",
                  KVOp.cas "root" old_data (Value.map data2) (some true)]
      match casResp with
      | MessageType.error _ _ => some (Except.error "failed cas", ops)
      | _ => some (Except.ok txn2, ops)

/-- The `Txn` branch of `TxnKVStoreApp`'s `App::handler`: an `Ok`
transaction is replied with `TxnOk`; any error is replied with error code
30 and the abort message.  A panic inside `transaction_handler` produces
no reply (`none`). -/
def txnHandlerReply (readResp casResp : MessageType) (txn : List Transaction) :
    Option (MessageType × List KVOp) :=
  match transaction_handler readResp casResp txn with
  | Option.none => Option.none
  | some (Except.ok txn2, ops) => some (MessageType.txnOk txn2, ops)
  | some (Except.error _, ops) =>
    some (MessageType.error 30
      "The requested transaction has been aborted because of a conflict.", ops)

/-! ## Helper lemmas -/

/-- The initial value bounds a `foldl max` from below. -/
theorem init_le_foldl_max (init : Int) (vs : List Int) :
    init ≤ vs.foldl max init := by
  induction vs generalizing init with
  | nil => exact le_refl _
  | cons v rest ih => exact le_trans (le_max_left _ _) (ih (max init v))

/-- Every folded element bounds a `foldl max` from below. -/
theorem mem_le_foldl_max (init : Int) (vs : List Int) :
    ∀ v ∈ vs, v ≤ vs.foldl max init := by
  induction vs generalizing init with
  | nil => intro v hv; cases hv
  | cons w rest ih =>
    intro v hv
    rcases List.mem_cons.mp hv with h | h
    · exact h ▸ le_trans (le_max_right _ _) (init_le_foldl_max _ _)
    · exact ih (max init w) v h

/-- A `foldl max` is attained at the initial value or at a list element. -/
theorem foldl_max_eq_init_or_mem (init : Int) (vs : List Int) :
    vs.foldl max init = init ∨ vs.foldl max init ∈ vs := by
  induction vs generalizing init with
  | nil => exact Or.inl rfl
  | cons v rest ih =>
    rw [List.foldl_cons]
    rcases ih (max init v) with h | h
    · rcases max_choice init v with hm | hm
      · exact Or.inl (h.trans hm)
      · exact Or.inr (by rw [h, hm]; exact List.mem_cons_self v rest)
    · exact Or.inr (List.mem_cons_of_mem v h)

/-- Setting the same key twice keeps only the second value. -/
theorem alSet_alSet (l : List (String × Int)) (key : String) (a b : Int) :
    alSet (alSet l key a) key b = alSet l key b := by
  induction l with
  | nil => rfl
  | cons p rest ih =>
    obtain ⟨k, w⟩ := p
    by_cases h : k = key <;> simp [alSet, h, ih]

/-- Looking up a key just set yields the new value, provided the key was
present. -/
theorem alLookup_alSet (l : List (String × Int)) (key : String) (v0 v : Int)
    (h : alLookup l key = some v0) :
    alLookup (alSet l key v) key = some v := by
  induction l with
  | nil => simp [alLookup] at h
  | cons p rest ih =>
    obtain ⟨k, w⟩ := p
    by_cases hk : k = key
    · simp [alSet, alLookup, hk]
    · simp [alLookup, hk] at h
      simp [alSet, alLookup, hk, ih h]

/-- Setting a key to the value it already holds is the identity. -/
theorem alSet_lookup_self (l : List (String × Int)) (key : String) (v : Int)
    (h : alLookup l key = some v) : alSet l key v = l := by
  induction l with
  | nil => rfl
  | cons p rest ih =>
    obtain ⟨k, w⟩ := p
    by_cases hk : k = key
    · simp [alLookup, hk] at h
      simp [alSet, hk, h]
    · simp [alLookup, hk] at h
      simp [alSet, hk, ih h]

/-- Evaluation of `runBroadcasts` in closed form: delivering `vs` from `src` sets the
source's slot to the left fold of `max` over `vs`. -/
theorem runBroadcasts_closed (counters : List (String × Int)) (src : String)
    (init : Int) (vs : List Int) (hsrc : alLookup counters src = some init) :
    runBroadcasts counters src vs = some (alSet counters src (vs.foldl max init)) := by
  induction vs generalizing counters init with
  | nil =>
    simp only [runBroadcasts, List.foldl_nil]
    rw [alSet_lookup_self counters src init hsrc]
  | cons v rest ih =>
    have h2 : alLookup (alSet counters src (max init v)) src = some (max init v) :=
      alLookup_alSet counters src init _ hsrc
    simp only [runBroadcasts, growStep, hsrc, List.foldl_cons]
    rw [ih (alSet counters src (max init v)) (max init v) h2,
      alSet_alSet]

/-- The retry-enabled select loop never returns an error outcome. -/
theorem rpcLoop_retry_not_error (dest : String) (body : MessageBody)
    (events : List RpcEvent) (e : RpcError) :
    (rpcLoop true dest body events).1 ≠ some (Except.error e) := by
  induction events with
  | nil => simp [rpcLoop]
  | cons ev rest ih =>
    cases ev with
    | tick => simpa [rpcLoop] using ih
    | reply m => simp [rpcLoop]

/-- Every resend of the retry-enabled select loop is the identical body
to the identical destination. -/
theorem rpcLoop_retry_sends (dest : String) (body : MessageBody)
    (events : List RpcEvent) :
    ∀ s ∈ (rpcLoop true dest body events).2, s = (dest, body) := by
  induction events with
  | nil => simp [rpcLoop]
  | cons ev rest ih =>
    cases ev with
    | tick =>
      intro s hs
      rcases List.mem_cons.mp hs with h | h
      · exact h
      · exact ih s h
    | reply m => simp [rpcLoop]

/-- The offsets of `runSends` ignore everything about the stored value except the list
it decodes to. -/
theorem runSends_fst_eq_vec (stored : Value) (msgs : List Int) :
    (runSends stored msgs).1 =
      (runSends (Value.vec ((stored.as_vec).getD [])) msgs).1 := by
  cases msgs <;> rfl

/-- Offsets returned by successive sends on a stored list are the
consecutive lengths starting at the initial length. -/
theorem runSends_fst_vec (l : List Int) (msgs : List Int) :
    (runSends (Value.vec l) msgs).1 =
      (List.range msgs.length).map (fun i : Nat => ((l.length : Int) + (i : Int))) := by
  induction msgs generalizing l with
  | nil => rfl
  | cons m rest ih =>
    have h1 : (runSends (Value.vec l) (m :: rest)).1
        = (l.length : Int) :: (runSends (Value.vec (l ++ [m])) rest).1 := rfl
    rw [h1, ih (l ++ [m])]
    rw [List.length_cons, List.range_succ_eq_map, List.map_cons, List.map_map]
    refine congrArg₂ List.cons (by simp) ?_
    apply List.map_congr_left
    intro i _
    simp only [Function.comp_apply, List.length_append, List.length_cons,
      List.length_nil]
    push_cast
    ring

/-- Lemma: `commitStep` writes the requested offset when it beats the stored
one. -/
theorem commitStep_pos (stored : Value) (offset : Int)
    (h : committedOf stored < offset) :
    commitStep stored offset = (Value.int offset, true) := by
  unfold committedOf at h
  simp [commitStep, h]

/-- Lemma: `commitStep` leaves the store untouched when the requested offset
does not beat the stored one. -/
theorem commitStep_neg (stored : Value) (offset : Int)
    (h : ¬ committedOf stored < offset) :
    commitStep stored offset = (stored, false) := by
  unfold committedOf at h
  simp [commitStep, h]

/-! ## Claim theorems -/

/-- C4: for every `Send { key, msg }` request, the offset in the
`send_ok` reply equals the length of the key's stored sequence before the
append (the empty sequence if the key is absent), the sequence written
back is the old sequence with `msg` appended at the end, and successive
sends for a fixed key return the strictly increasing offsets
`len, len+1, …`, in particular `0, 1, 2, …` from an absent key. -/
theorem send_offset_is_pre_append_length (stored : Value) (msg : Int)
    (msgs : List Int) :
    (sendStep stored msg).1 = ((stored.as_vec).getD []).length
    ∧ (sendStep stored msg).2 = Value.vec ((stored.as_vec).getD [] ++ [msg])
    ∧ (runSends stored msgs).1 =
        (List.range msgs.length).map
          (fun i : Nat => ((((stored.as_vec).getD []).length : Int) + (i : Int)))
    ∧ (runSends Value.none msgs).1 =
        (List.range msgs.length).map (fun i : Nat => (i : Int)) := by
  refine ⟨rfl, rfl, ?_, ?_⟩
  · rw [runSends_fst_eq_vec, runSends_fst_vec]
  · rw [runSends_fst_eq_vec, runSends_fst_vec]
    simp [Value.as_vec]

/-- C5: a `CommitOffsets` request overwrites a key's stored committed
offset exactly when the requested offset is strictly greater than the
stored one (absence read as `-1`); the committed offset never decreases,
and committing `3` then `1` leaves it at `3`. -/
theorem commit_offsets_never_regress (stored : Value) (offset : Int) :
    ((commitStep stored offset).2 = true ↔ committedOf stored < offset)
    ∧ committedOf (commitStep stored offset).1 = max (committedOf stored) offset
    ∧ ((commitStep stored offset).2 = false → (commitStep stored offset).1 = stored)
    ∧ committedOf stored ≤ committedOf (commitStep stored offset).1
    ∧ runCommits Value.none [3, 1] = Value.int 3 := by
  by_cases h : committedOf stored < offset
  · rw [commitStep_pos stored offset h]
    exact ⟨by simp [h], (max_eq_right h.le).symm, by simp, h.le, by decide⟩
  · rw [commitStep_neg stored offset h]
    exact ⟨by simp [h], (max_eq_left (not_lt.mp h)).symm, fun _ => rfl,
      le_refl _, by decide⟩

/-- C5 witness: committing offset `3` over an absent stored value. -/
theorem commit_offsets_never_regress_witness :
    ((commitStep Value.none 3).2 = true ↔ committedOf Value.none < 3)
    ∧ committedOf (commitStep Value.none 3).1 = max (committedOf Value.none) 3
    ∧ ((commitStep Value.none 3).2 = false → (commitStep Value.none 3).1 = Value.none)
    ∧ committedOf Value.none ≤ committedOf (commitStep Value.none 3).1
    ∧ runCommits Value.none [3, 1] = Value.int 3 :=
  commit_offsets_never_regress Value.none 3

/-- C6: at the concrete request `list_committed_offsets { keys: ["k1"] }`
with committed offset `3` stored under the derived key `"k1-commited"`,
the reply map is keyed by the derived storage key, not by the requested
key `"k1"` as the specification states. -/
theorem list_committed_replies_derived_key :
    listCommittedHandler
        (fun k => if k = derivedKey "k1" then Value.int 3 else Value.none) ["k1"]
      = [(derivedKey "k1", 3)]
    ∧ listCommittedHandler
        (fun k => if k = derivedKey "k1" then Value.int 3 else Value.none) ["k1"]
      ≠ [("k1", 3)] := by
  constructor
  · decide
  · decide

/-- C7: at the concrete transaction `[["r", 1, null]]` against a root map
not containing key `"1"`, the `Read` arm's
`data.get(..).map(..).unwrap()` panics (modelled `none`) and the handler
produces no reply, while the same read against a root map containing
`"1" ↦ [5]` fills in the stored value list. -/
theorem txn_read_absent_key_panics :
    processTxn [] [Transaction.read 1 Value.none] = Option.none
    ∧ txnHandlerReply (MessageType.readOk Option.none (some (Value.map [])))
        MessageType.casOk [Transaction.read 1 Value.none] = Option.none
    ∧ processTxn [("1", [5])] [Transaction.read 1 Value.none]
        = some ([Transaction.read 1 (Value.vec [5])], [("1", [5])]) := by
  refine ⟨by decide, ?_, by decide⟩
  rfl

/-- C9 counterexample: on the concrete input stream
`[init n1, init n2, echo]`, the second `init` makes `set_node_meta` fail
and `run_with_app` propagates the error, terminating the dispatch loop:
the identity stays `n1` but the echo request is never dispatched,
contradicting that the runtime continues dispatching normally. -/
theorem second_init_stops_dispatch :
    runWithApp ⟨Option.none, [], []⟩
        [mkInitMsg "c" "n1" (some 0) "n1" ["n1", "n2"],
         mkInitMsg "c" "n1" (some 1) "n2" ["n1", "n2"],
         ⟨"c1", "n1", ⟨some 2, Option.none, MessageType.echo "hi"⟩⟩]
      = Except.error ("node meta already set",
          ⟨some ⟨"n1", ["n1", "n2"]⟩, [], []⟩) := by
  rfl

/-- C9 (amended): the first `init` sets the node identity and dispatch
continues; any subsequent `init` leaves the already-set identity and all
dispatch state untouched, but aborts the dispatch loop with an error
instead of continuing — the remaining input is never dispatched. -/
theorem init_write_once_then_abort (meta : NodeMeta) (hs resp : List Message)
    (src dest : String) (mid mid2 : Option Nat) (nid nid2 : String)
    (nids nids2 : List String) (rest : List Message) :
    runWithApp ⟨Option.none, hs, resp⟩ (mkInitMsg src dest mid nid nids :: rest)
      = runWithApp ⟨some ⟨nid, nids⟩, hs, resp⟩ rest
    ∧ runWithApp ⟨some meta, hs, resp⟩ (mkInitMsg src dest mid2 nid2 nids2 :: rest)
      = Except.error ("node meta already set", ⟨some meta, hs, resp⟩) :=
  ⟨rfl, rfl⟩

/-- C10: a non-retrying rpc call that times out returns the timeout error
with its request id still registered in the pending-request table (the
call inserts the entry and no path of the call removes it, whatever the
retry flag or event sequence), and only `process_response` — the
response-resolution path — removes the entry. -/
theorem rpc_timeout_keeps_pending_entry (table : Finset Nat) (msgId : Nat)
    (dest : String) (body0 : MessageBody) (retry : Bool)
    (events rest : List RpcEvent) :
    (rpcRun table msgId false dest body0 (RpcEvent.tick :: rest)).1
      = some (Except.error RpcError.timedOut)
    ∧ (rpcRun table msgId retry dest body0 events).2.2 = insert msgId table
    ∧ msgId ∈ (rpcRun table msgId false dest body0 (RpcEvent.tick :: rest)).2.2
    ∧ processResponseTable
        (rpcRun table msgId false dest body0 (RpcEvent.tick :: rest)).2.2 msgId
      = ((insert msgId table).erase msgId, true)
    ∧ msgId ∉ (processResponseTable (insert msgId table) msgId).1 := by
  refine ⟨rfl, rfl, ?_, ?_, ?_⟩
  · exact Finset.mem_insert_self _ _
  · simp [rpcRun, processResponseTable]
  · exact Finset.not_mem_erase _ _

/-- C8: a non-retrying rpc call whose first 500 ms tick arrives before
any reply returns the timeout failure, having sent its body exactly once;
a retry-enabled call never returns a timeout — on each tick it resends
the byte-identical body carrying the same request id. -/
theorem rpc_timeout_vs_retry (table : Finset Nat) (msgId : Nat) (dest : String)
    (body0 : MessageBody) (rest events : List RpcEvent) :
    (rpcRun table msgId false dest body0 (RpcEvent.tick :: rest)).1
      = some (Except.error RpcError.timedOut)
    ∧ (rpcRun table msgId false dest body0 (RpcEvent.tick :: rest)).2.1
      = [(dest, { body0 with msg_id := some msgId })]
    ∧ (∀ e, (rpcRun table msgId true dest body0 events).1
        ≠ some (Except.error e))
    ∧ (∀ s ∈ (rpcRun table msgId true dest body0 events).2.1,
        s = (dest, { body0 with msg_id := some msgId })) := by
  refine ⟨rfl, rfl, ?_, ?_⟩
  · intro e
    simpa [rpcRun] using rpcLoop_retry_not_error dest _ events e
  · intro s hs
    rcases List.mem_cons.mp hs with h | h
    · exact h
    · exact rpcLoop_retry_sends dest _ events s h

/-- C8 witness: with one tick and no reply, the non-retrying call at
request id 0 times out while the retrying call does not. -/
theorem rpc_timeout_vs_retry_witness :
    (rpcRun ∅ 0 false "lin-kv" (MessageBody.with_type MessageType.casOk)
        [RpcEvent.tick]).1 = some (Except.error RpcError.timedOut)
    ∧ (rpcRun ∅ 0 true "lin-kv" (MessageBody.with_type MessageType.casOk)
        [RpcEvent.tick]).1 ≠ some (Except.error RpcError.timedOut) :=
  ⟨(rpc_timeout_vs_retry ∅ 0 "lin-kv" (MessageBody.with_type MessageType.casOk)
      [] [RpcEvent.tick]).1,
   (rpc_timeout_vs_retry ∅ 0 "lin-kv" (MessageBody.with_type MessageType.casOk)
      [] [RpcEvent.tick]).2.2.1 RpcError.timedOut⟩

/-- When the compare-and-swap response is an error payload,
`transaction_handler` (when it reaches the CAS at all) returns the
`failed cas` error, having issued exactly one read of `root` followed by
the single `root` compare-and-swap. -/
theorem transaction_handler_cas_error (readResp : MessageType) (c : Nat)
    (s : String) (txn0 : List Transaction)
    (r : Except String (List Transaction)) (ops : List KVOp)
    (h : transaction_handler readResp (MessageType.error c s) txn0 = some (r, ops)) :
    r = Except.error "failed cas"
    ∧ ∃ oldData newData,
        ops = [KVOp.read "root",
               KVOp.cas "root" oldData (Value.map newData) (some true)] := by
  unfold transaction_handler at h
  cases hv : valueOfReadResp readResp with
  | none =>
    simp only [hv] at h
    exact Option.noConfusion h
  | some old =>
    simp only [hv] at h
    cases hp : processTxn (rootData old) txn0 with
    | none =>
      simp only [hp] at h
      exact Option.noConfusion h
    | some pr =>
      obtain ⟨txn2, data2⟩ := pr
      simp only [hp, Option.some.injEq, Prod.mk.injEq] at h
      exact ⟨h.1.symm, old, data2, h.2.symm⟩

/-- C1: in the whole-root transaction variant, whenever the handler's
final compare-and-swap of `root` fails (the external store replies with
an error payload), the node replies with error code 30 and the abort
text, and the operations issued are exactly one read of `root` followed
by the single `root` compare-and-swap — the only store mutation the
handler issues, so the failed transaction leaves the store unchanged. -/
theorem txn_cas_failure_aborts (readResp : MessageType) (c : Nat) (s : String)
    (txn0 : List Transaction) (reply : MessageType) (ops : List KVOp)
    (h : txnHandlerReply readResp (MessageType.error c s) txn0 = some (reply, ops)) :
    reply = MessageType.error 30
      "The requested transaction has been aborted because of a conflict."
    ∧ ∃ oldData newData,
        ops = [KVOp.read "root",
               KVOp.cas "root" oldData (Value.map newData) (some true)]
        ∧ ops.filter KVOp.isMutation
          = [KVOp.cas "root" oldData (Value.map newData) (some true)] := by
  unfold txnHandlerReply at h
  cases ht : transaction_handler readResp (MessageType.error c s) txn0 with
  | none => rw [ht] at h; simp at h
  | some res =>
    obtain ⟨r, ops0⟩ := res
    obtain ⟨hr, oldData, newData, hops⟩ :=
      transaction_handler_cas_error readResp c s txn0 r ops0 ht
    rw [ht, hr] at h
    simp only [Option.some.injEq, Prod.mk.injEq] at h
    refine ⟨h.1.symm, oldData, newData, ?_, ?_⟩
    · rw [← h.2, hops]
    · rw [← h.2, hops]
      rfl

/-- C1 witness: a read of the root map `{"1" ↦ [5]}`, a transaction
reading key 1, and a CAS rejected with an error payload. -/
theorem txn_cas_failure_aborts_witness :
    txnHandlerReply (MessageType.readOk Option.none (some (Value.map [("1", [5])])))
        (MessageType.error 22 "cas failed") [Transaction.read 1 Value.none]
      = some (MessageType.error 30
          "The requested transaction has been aborted because of a conflict.",
        [KVOp.read "root",
         KVOp.cas "root" (Value.map [("1", [5])]) (Value.map [("1", [5])]) (some true)])
    ∧ (MessageType.error 30
        "The requested transaction has been aborted because of a conflict."
      = MessageType.error 30
        "The requested transaction has been aborted because of a conflict."
      ∧ ∃ oldData newData,
          [KVOp.read "root",
           KVOp.cas "root" (Value.map [("1", [5])]) (Value.map [("1", [5])]) (some true)]
          = [KVOp.read "root",
             KVOp.cas "root" oldData (Value.map newData) (some true)]
          ∧ List.filter KVOp.isMutation
              [KVOp.read "root",
               KVOp.cas "root" (Value.map [("1", [5])]) (Value.map [("1", [5])]) (some true)]
            = [KVOp.cas "root" oldData (Value.map newData) (some true)]) :=
  ⟨by rfl,
   txn_cas_failure_aborts (MessageType.readOk Option.none (some (Value.map [("1", [5])])))
     22 "cas failed" [Transaction.read 1 Value.none] _ _ (by rfl)⟩

/-- C2: delivering a finite list of grow-counter state broadcasts from
peer `src` — in any order, duplicates allowed — drives the source's slot
to the `max`-fold of the delivered values over its initial value: the
final counter table, hence the slot and the `Read` sum, are independent
of delivery order, the final slot bounds the initial value and every
delivered value, and it is attained by the initial value or one of the
deliveries. -/
theorem counter_slot_is_max_of_deliveries (counters : List (String × Int))
    (src : String) (init : Int) (vs vs2 : List Int)
    (hsrc : alLookup counters src = some init) (hperm : vs.Perm vs2) :
    runBroadcasts counters src vs = some (alSet counters src (vs.foldl max init))
    ∧ runBroadcasts counters src vs = runBroadcasts counters src vs2
    ∧ (runBroadcasts counters src vs).map readSum
      = (runBroadcasts counters src vs2).map readSum
    ∧ alLookup (alSet counters src (vs.foldl max init)) src
      = some (vs.foldl max init)
    ∧ init ≤ vs.foldl max init
    ∧ (∀ v ∈ vs, v ≤ vs.foldl max init)
    ∧ (vs.foldl max init = init ∨ vs.foldl max init ∈ vs) := by
  have h1 := runBroadcasts_closed counters src init vs hsrc
  have h2 := runBroadcasts_closed counters src init vs2 hsrc
  have hf : vs.foldl max init = vs2.foldl max init := hperm.foldl_eq init
  refine ⟨h1, ?_, ?_, alLookup_alSet counters src init _ hsrc,
    init_le_foldl_max init vs, mem_le_foldl_max init vs,
    foldl_max_eq_init_or_mem init vs⟩
  · rw [h1, h2, hf]
  · rw [h1, h2, hf]

/-- C2 witness: node B's slot for peer A starts at 2; A's broadcasts
`[8, 5]` arrive reordered as `[5, 8]`. -/
theorem counter_slot_is_max_of_deliveries_witness :
    alLookup [("a", 0), ("b", 2)] "b" = some 2
    ∧ ([8, 5] : List Int).Perm [5, 8]
    ∧ (runBroadcasts [("a", 0), ("b", 2)] "b" [8, 5]
        = some (alSet [("a", 0), ("b", 2)] "b" (List.foldl max 2 [8, 5]))
      ∧ runBroadcasts [("a", 0), ("b", 2)] "b" [8, 5]
        = runBroadcasts [("a", 0), ("b", 2)] "b" [5, 8]
      ∧ (runBroadcasts [("a", 0), ("b", 2)] "b" [8, 5]).map readSum
        = (runBroadcasts [("a", 0), ("b", 2)] "b" [5, 8]).map readSum
      ∧ alLookup (alSet [("a", 0), ("b", 2)] "b" (List.foldl max 2 [8, 5])) "b"
        = some (List.foldl max 2 [8, 5])
      ∧ (2 : Int) ≤ List.foldl max 2 [8, 5]
      ∧ (∀ v ∈ ([8, 5] : List Int), v ≤ List.foldl max 2 [8, 5])
      ∧ (List.foldl max (2 : Int) [8, 5] = 2
          ∨ List.foldl max (2 : Int) [8, 5] ∈ ([8, 5] : List Int))) :=
  ⟨by decide, by decide,
   counter_slot_is_max_of_deliveries [("a", 0), ("b", 2)] "b" 2 [8, 5] [5, 8]
     (by decide) (by decide)⟩

/-- C3: a broadcast of a value already in the seen-set leaves the set
unchanged, forwards nothing and replies `broadcast_ok`; a new value is
inserted, forwarded once to every neighbour except the request's source
with the retry flag set, and acknowledged — hence a second delivery of
the same value changes nothing and forwards nothing. -/
theorem broadcast_dedup_idempotent (seen : Finset Int) (src src2 : String)
    (nbrs nbrs2 : List String) (m : Int) :
    (m ∈ seen → broadcastStep seen src nbrs m
      = (seen, [], MessageBody.with_type MessageType.broadcastOk))
    ∧ (m ∉ seen → broadcastStep seen src nbrs m
      = (insert m seen,
         (nbrs.filter (fun n => n ≠ src)).map
           (fun n => (n, MessageBody.with_type (MessageType.broadcast m), true)),
         MessageBody.with_type MessageType.broadcastOk))
    ∧ broadcastStep (broadcastStep seen src nbrs m).1 src2 nbrs2 m
      = ((broadcastStep seen src nbrs m).1, [],
         MessageBody.with_type MessageType.broadcastOk) := by
  refine ⟨fun h => by simp [broadcastStep, h],
    fun h => by simp [broadcastStep, h], ?_⟩
  by_cases h : m ∈ seen
  · have e1 : (broadcastStep seen src nbrs m).1 = seen := by
      simp [broadcastStep, h]
    rw [e1]
    simp [broadcastStep, h]
  · have e1 : (broadcastStep seen src nbrs m).1 = insert m seen := by
      simp [broadcastStep, h]
    rw [e1]
    simp [broadcastStep, Finset.mem_insert_self]

/-- C3 witness: value 5, unseen, arriving from `n2` on a node whose
neighbours are `n1`, `n2`, `n3`, then delivered a second time from
`n1`. -/
theorem broadcast_dedup_idempotent_witness :
    (5 : Int) ∉ (∅ : Finset Int)
    ∧ broadcastStep ∅ "n2" ["n1", "n2", "n3"] 5
      = (insert 5 ∅,
         (["n1", "n2", "n3"].filter (fun n => n ≠ "n2")).map
           (fun n => (n, MessageBody.with_type (MessageType.broadcast 5), true)),
         MessageBody.with_type MessageType.broadcastOk)
    ∧ broadcastStep (broadcastStep ∅ "n2" ["n1", "n2", "n3"] 5).1 "n1" ["n2"] 5
      = ((broadcastStep ∅ "n2" ["n1", "n2", "n3"] 5).1, [],
         MessageBody.with_type MessageType.broadcastOk) :=
  ⟨by decide,
   (broadcast_dedup_idempotent ∅ "n2" "n1" ["n1", "n2", "n3"] ["n2"] 5).2.1
     (by decide),
   (broadcast_dedup_idempotent ∅ "n2" "n1" ["n1", "n2", "n3"] ["n2"] 5).2.2⟩

end GossipGlomers
